import Mathlib

/-!
Shallow embedding of the liblsl-rust wrapper (src/src/lib.rs).

Timestamps and sampling rates are modelled as rationals: the wrapper only
performs exact comparisons with the sentinels 0.0 and the back-computation
T - k/rate, and the specification states these rules in exact arithmetic.
Calls across the foreign boundary are modelled by recording the arguments
that would be handed to the engine (for pushes) or by an explicit engine
response value (for pulls and constructors).  A Rust panic (assert failure,
integer-overflow abort, out-of-bounds index) is modelled as the value
Option.none of an Option-typed outcome.
-/

/-- Constant to indicate that a stream has variable sampling rate
(src/src/lib.rs, constant IRREGULAR_RATE = 0.0). -/
def IRREGULAR_RATE : ℚ := 0

/-- Constant to indicate that a sample has the next successive time stamp;
the stamp is then deduced from the preceding one according to the nominal
sampling rate, and with an irregular rate the same stamp as before is assumed
(src/src/lib.rs, constant DEDUCED_TIMESTAMP = -1.0). -/
def DEDUCED_TIMESTAMP : ℚ := -1

/-- Error type of the wrapper (src/src/lib.rs, enum Error). -/
inductive Error where
  | BadArgument
  | Timeout
  | StreamLost
  | ResourceCreation
  | Internal
  | Unknown
deriving DecidableEq, Repr

/-- Modelled from the spec: the integer error codes of the external engine
(section 6 of the spec: integer error codes mapped to the Error taxonomy).
The numeric constants come from the generated FFI bindings, which are not
part of the sources; only their distinctness and negativity matter below.
Timeout code of the engine. -/
def lsl_timeout_error : Int := -1

/-- Modelled from the spec: lost-stream code of the engine. -/
def lsl_lost_error : Int := -2

/-- Modelled from the spec: bad-argument code of the engine. -/
def lsl_argument_error : Int := -3

/-- Modelled from the spec: internal-error code of the engine. -/
def lsl_internal_error : Int := -4

/-- Embedding of the internal function ec_to_result (src/src/lib.rs):
checks whether an engine return value signals an error and converts it to
the corresponding Err variant, or to Ok(value) otherwise. -/
def ec_to_result (ec : Int) : Except Error Int :=
  if ec < 0 then
    if ec = lsl_timeout_error then .error .Timeout
    else if ec = lsl_argument_error then .error .BadArgument
    else if ec = lsl_lost_error then .error .StreamLost
    else if ec = lsl_internal_error then .error .Internal
    else .error .Unknown
  else .ok ec

/-- A stream outlet, reduced to the fields that the push paths consult:
the cached channel count and nominal rate (src/src/lib.rs, struct
StreamOutlet, fields channel_count and nominal_rate). -/
structure StreamOutlet where
  channel_count : Nat
  nominal_rate : ℚ

/-- The arguments of one call across the foreign boundary pushing a single
sample: the per-channel data, the timestamp, and the pushthrough flag
(the trailing arguments of lsl_push_sample_*tp in src/src/lib.rs). -/
structure PushCall (α : Type) where
  data : List α
  timestamp : ℚ
  pushthrough : Bool
deriving DecidableEq, Repr

/-- Embedding of StreamOutlet::safe_push_numeric (src/src/lib.rs): first
assert_len checks the data length against the cached channel count -- a
mismatch panics (modelled as none) -- then the sample is handed to the
engine (modelled as recording the call). -/
def safe_push_numeric (o : StreamOutlet) (data : List α) (timestamp : ℚ)
    (pushthrough : Bool) : Option (PushCall α) :=
  if data.length = o.channel_count then
    some ⟨data, timestamp, pushthrough⟩
  else
    none

/-- Embedding of StreamOutlet::safe_push_blob (src/src/lib.rs) for the
string-like value types (String, str references, byte slices), each element
modelled as its byte sequence: assert_len runs first (mismatch panics,
modelled as none); then each element byte length is converted to u32 with
try_from(..).unwrap(), which panics when an element is 2^32 bytes or longer;
then the sample is handed to the engine. -/
def safe_push_blob (o : StreamOutlet) (data : List (List Nat)) (timestamp : ℚ)
    (pushthrough : Bool) : Option (PushCall (List Nat)) :=
  if data.length = o.channel_count then
    if data.all (fun x => x.length < 2 ^ 32) then
      some ⟨data, timestamp, pushthrough⟩
    else
      none
  else
    none

/-- Embedding of Pushable::push_sample for the numeric value types
(src/src/lib.rs): it forwards to push_sample_ex(data, 0.0, true), which for
every numeric type is safe_push_numeric of the matching native function. -/
def push_sample (o : StreamOutlet) (data : List α) : Option (PushCall α) :=
  safe_push_numeric o data 0 true

/-- Embedding of Pushable::push_sample for the string-like value types
(src/src/lib.rs): it forwards to push_sample_ex(data, 0.0, true), which is
safe_push_blob for these types. -/
def push_sample_blob (o : StreamOutlet) (data : List (List Nat)) :
    Option (PushCall (List Nat)) :=
  safe_push_blob o data 0 true

/-- The loop for k in 1..=max_k of ExPushable::push_chunk_ex
(src/src/lib.rs): each successive sample is pushed with the
DEDUCED_TIMESTAMP sentinel and with pushthrough only when k = max_k.
The list argument holds samples[k..], and the counter k mirrors the loop
variable.  Each emitted triple records one push_sample_ex call
(sample, timestamp, pushthrough). -/
def pushLoop (pushthrough : Bool) (maxK : Nat) :
    Nat → List α → List (α × ℚ × Bool)
  | _, [] => []
  | k, s :: rest =>
    (s, DEDUCED_TIMESTAMP, pushthrough && decide (k = maxK)) ::
      pushLoop pushthrough maxK (k + 1) rest

/-- Embedding of ExPushable::push_chunk_ex (src/src/lib.rs): on a non-empty
batch, the effective final timestamp is the caller value, or the clock value
local_clock() when the caller passed 0.0; with a regular nominal rate the
first sample is pushed at timestamp - max_k/srate, and every further sample
with the DEDUCED_TIMESTAMP sentinel; the first push gets pushthrough only
for a singleton batch, later pushes only at k = max_k.  The result is the
list of push_sample_ex calls in order. -/
def push_chunk_ex (samples : List α) (timestamp : ℚ) (pushthrough : Bool)
    (srate clock : ℚ) : List (α × ℚ × Bool) :=
  match samples with
  | [] => []
  | s0 :: rest =>
    let ts0 : ℚ := if timestamp = 0 then clock else timestamp
    let maxK : Nat := rest.length
    let ts1 : ℚ := if srate ≠ IRREGULAR_RATE then ts0 - (maxK : ℚ) / srate else ts0
    (s0, ts1, pushthrough && decide (rest.length + 1 = 1)) ::
      pushLoop pushthrough maxK 1 rest

/-- The engine-side interpretation of a chunk trace, following the
documentation of DEDUCED_TIMESTAMP (src/src/lib.rs): a sample pushed with
the sentinel takes the stamp deduced from the preceding one according to
the nominal rate (the same stamp for an irregular rate, the previous stamp
plus one sampling interval otherwise).  prev is the effective stamp of the
preceding sample. -/
def derivedRun (srate : ℚ) : ℚ → List (α × ℚ × Bool) → List ℚ
  | _, [] => []
  | prev, (_, ts, _) :: rest =>
    let eff : ℚ :=
      if ts = DEDUCED_TIMESTAMP then
        if srate = IRREGULAR_RATE then prev else prev + 1 / srate
      else ts
    eff :: derivedRun srate eff rest

/-- Effective per-sample timestamps of a chunk trace whose first sample
carries an explicit stamp: the first stamp anchors the deduction of
derivedRun for the rest. -/
def derivedStamps (srate : ℚ) : List (α × ℚ × Bool) → List ℚ
  | [] => []
  | (_, ts, _) :: rest => ts :: derivedRun srate ts rest

/-- The loop of ExPushable::push_chunk_stamped_ex over all samples before
the last (src/src/lib.rs): each is pushed with its own timestamp and
pushthrough false, and the last sample with the caller flag. -/
def stampedLoop (pushthrough : Bool) : List (α × ℚ) → List (α × ℚ × Bool)
  | [] => []
  | [(s, t)] => [(s, t, pushthrough)]
  | (s, t) :: p :: rest => (s, t, false) :: stampedLoop pushthrough (p :: rest)

/-- Embedding of ExPushable::push_chunk_stamped_ex (src/src/lib.rs):
assert_eq aborts (none) when the two lengths differ; then the code computes
samples.len() - 1 on usize BEFORE checking emptiness, so an empty batch
aborts as well (subtraction overflow panic in debug builds; wrapped value
followed by an out-of-bounds samples[0] panic in release builds).  On a
non-empty batch, every sample before the last is pushed with its own
timestamp and pushthrough false, and the last with the caller flag. -/
def push_chunk_stamped_ex (samples : List α) (timestamps : List ℚ)
    (pushthrough : Bool) : Option (List (α × ℚ × Bool)) :=
  if samples.length = timestamps.length then
    if samples.length = 0 then
      none
    else
      some (stampedLoop pushthrough (samples.zip timestamps))
  else
    none

/-- Claim C9: ec_to_result returns Ok(ec) if and only if ec is non-negative;
for negative ec it returns exactly Err(Timeout) for the timeout code,
Err(BadArgument) for the argument code, Err(StreamLost) for the lost code,
Err(Internal) for the internal code, Err(Unknown) for every other negative
code; and it never produces Err(ResourceCreation). -/
theorem ec_to_result_spec (ec : Int) :
    (ec_to_result ec = .ok ec ↔ 0 ≤ ec) ∧
    (ec = lsl_timeout_error → ec_to_result ec = .error .Timeout) ∧
    (ec = lsl_argument_error → ec_to_result ec = .error .BadArgument) ∧
    (ec = lsl_lost_error → ec_to_result ec = .error .StreamLost) ∧
    (ec = lsl_internal_error → ec_to_result ec = .error .Internal) ∧
    (ec < 0 → ec ≠ lsl_timeout_error → ec ≠ lsl_argument_error →
      ec ≠ lsl_lost_error → ec ≠ lsl_internal_error →
      ec_to_result ec = .error .Unknown) ∧
    ec_to_result ec ≠ .error .ResourceCreation := by
  unfold ec_to_result lsl_timeout_error lsl_argument_error lsl_lost_error lsl_internal_error
  split_ifs with h1 h2 h3 h4 h5 <;> simp_all
  omega

/-- Witness for claim C9 at concrete error codes. -/
theorem ec_to_result_spec_witness :
    ec_to_result (-1) = .error .Timeout ∧ ec_to_result 3 = .ok 3 := by
  refine ⟨(ec_to_result_spec (-1)).2.1 (by decide), ?_⟩
  exact (ec_to_result_spec 3).1.mpr (by decide)

theorem pushLoop_map_ts (pt : Bool) (maxK : Nat) (rest : List α) :
    ∀ k, (pushLoop pt maxK k rest).map (fun x => x.2.1) =
      List.replicate rest.length DEDUCED_TIMESTAMP := by
  induction rest with
  | nil => intro _; rfl
  | cons s tl ih =>
    intro k
    simp [pushLoop, List.replicate_succ, ih (k + 1)]

theorem range_map_succ {β : Type} (n : Nat) (f : Nat → β) :
    (List.range (n + 1)).map f = f 0 :: (List.range n).map (fun i => f (i + 1)) := by
  rw [List.range_succ_eq_map, List.map_cons, List.map_map]
  rfl

theorem pushLoop_map_flag (pt : Bool) (maxK : Nat) (rest : List α) :
    ∀ k, (pushLoop pt maxK k rest).map (fun x => x.2.2) =
      (List.range rest.length).map (fun i => pt && decide (k + i = maxK)) := by
  induction rest with
  | nil => intro _; rfl
  | cons s tl ih =>
    intro k
    simp only [pushLoop, List.map_cons, List.length_cons, range_map_succ,
      ih (k + 1)]
    refine congrArg₂ List.cons (by simp) ?_
    refine List.map_congr_left fun i _ => ?_
    congr 1
    simp only [decide_eq_decide]
    omega

theorem derivedRun_pushLoop (srate : ℚ) (hs : srate ≠ IRREGULAR_RATE)
    (pt : Bool) (maxK : Nat) (rest : List α) :
    ∀ k prev, derivedRun srate prev (pushLoop pt maxK k rest) =
      (List.range rest.length).map
        (fun (i : ℕ) => prev + ((i : ℚ) + 1) / srate) := by
  induction rest with
  | nil => intro _ _; rfl
  | cons s tl ih =>
    intro k prev
    simp only [pushLoop, derivedRun, if_pos rfl, if_neg hs,
      eq_self_iff_true, ite_true, List.length_cons, range_map_succ,
      ih (k + 1) (prev + 1 / srate)]
    refine congrArg₂ List.cons (by norm_num) ?_
    refine List.map_congr_left fun i _ => ?_
    push_cast
    ring

theorem derivedRun_pushLoop_irregular (pt : Bool) (maxK : Nat)
    (rest : List α) :
    ∀ k prev, derivedRun IRREGULAR_RATE prev (pushLoop pt maxK k rest) =
      List.replicate rest.length prev := by
  induction rest with
  | nil => intro _ _; rfl
  | cons s tl ih =>
    intro k prev
    simp [pushLoop, derivedRun, List.replicate_succ, ih (k + 1)]

/-- Claim C1: for a non-empty batch of N samples with effective final
timestamp T (the caller timestamp, or the clock value when the caller
passed 0.0): with a regular nominal rate the trace pushes the first sample
at T - (N-1)/R and every further sample with the DEDUCED_TIMESTAMP
sentinel, so the engine-derived stamp of sample k is T - (N-1-k)/R; with
the irregular-rate sentinel the first sample is pushed at T, the rest with
DEDUCED_TIMESTAMP, and every derived stamp equals T. -/
theorem push_chunk_ex_timestamps (samples : List α) (timestamp : ℚ)
    (pushthrough : Bool) (srate clock : ℚ) (hne : samples ≠ []) :
    (srate ≠ IRREGULAR_RATE →
      (push_chunk_ex samples timestamp pushthrough srate clock).map
          (fun x => x.2.1) =
        ((if timestamp = 0 then clock else timestamp) -
            ((samples.length : ℚ) - 1) / srate) ::
          List.replicate (samples.length - 1) DEDUCED_TIMESTAMP ∧
      derivedStamps srate
          (push_chunk_ex samples timestamp pushthrough srate clock) =
        (List.range samples.length).map (fun (k : ℕ) =>
          (if timestamp = 0 then clock else timestamp) -
            ((samples.length : ℚ) - 1 - (k : ℚ)) / srate)) ∧
    (srate = IRREGULAR_RATE →
      (push_chunk_ex samples timestamp pushthrough srate clock).map
          (fun x => x.2.1) =
        (if timestamp = 0 then clock else timestamp) ::
          List.replicate (samples.length - 1) DEDUCED_TIMESTAMP ∧
      derivedStamps srate
          (push_chunk_ex samples timestamp pushthrough srate clock) =
        List.replicate samples.length
          (if timestamp = 0 then clock else timestamp)) := by
  match samples, hne with
  | s0 :: rest, _ =>
    set T : ℚ := if timestamp = 0 then clock else timestamp with hT
    constructor
    · intro hs
      simp only [push_chunk_ex, if_pos hs, List.map_cons, List.length_cons]
      constructor
      · refine congrArg₂ List.cons ?_ ?_
        · push_cast
          ring
        · simp [pushLoop_map_ts]
      · simp only [derivedStamps, derivedRun_pushLoop srate hs,
          range_map_succ]
        refine congrArg₂ List.cons ?_ ?_
        · push_cast
          ring
        · refine List.map_congr_left fun i _ => ?_
          push_cast
          ring
    · intro hs
      have hs' : ¬srate ≠ IRREGULAR_RATE := by simp [hs]
      simp only [push_chunk_ex, if_neg hs', List.map_cons, List.length_cons]
      refine ⟨by simp [pushLoop_map_ts], ?_⟩
      simp [derivedStamps, hs, derivedRun_pushLoop_irregular,
        List.replicate_succ]

/-- Witness for claim C1: a 3-sample chunk at rate 250 with final
timestamp 100 derives stamps 100 - 2/250, 100 - 1/250, 100. -/
theorem push_chunk_ex_timestamps_witness :
    derivedStamps 250 (push_chunk_ex ([10, 20, 30] : List ℚ) 100 true 250 7) =
      [12499/125, 24999/250, 100] := by
  have h := ((push_chunk_ex_timestamps ([10, 20, 30] : List ℚ) 100 true 250 7
      (by decide)).1 (by decide)).2
  rw [h]
  norm_num [List.length_cons, List.range_succ]

/-- Claim C2: for a non-empty batch of N samples, the first sample is
pushed with pushthrough equal to (pushthrough and N = 1), every
intermediate sample with pushthrough false, and for N > 1 the last sample
with the caller flag; only the true last sample of the chunk carries the
caller-specified flag. -/
theorem push_chunk_ex_pushthrough (samples : List α) (timestamp : ℚ)
    (pushthrough : Bool) (srate clock : ℚ) (hne : samples ≠ []) :
    ((push_chunk_ex samples timestamp pushthrough srate clock).map
        (fun x => x.2.2))[0]? =
      some (pushthrough && decide (samples.length = 1)) ∧
    (∀ k, 1 ≤ k → k + 1 < samples.length →
      ((push_chunk_ex samples timestamp pushthrough srate clock).map
          (fun x => x.2.2))[k]? = some false) ∧
    (1 < samples.length →
      ((push_chunk_ex samples timestamp pushthrough srate clock).map
          (fun x => x.2.2))[samples.length - 1]? = some pushthrough) := by
  match samples, hne with
  | s0 :: rest, _ =>
    have hflag : ((push_chunk_ex (s0 :: rest) timestamp pushthrough srate
        clock).map (fun x => x.2.2)) =
        (pushthrough && decide (rest.length + 1 = 1)) ::
          (List.range rest.length).map
            (fun i => pushthrough && decide (1 + i = rest.length)) := by
      simp only [push_chunk_ex, List.map_cons, pushLoop_map_flag]
    refine ⟨?_, ?_, ?_⟩
    · simp [hflag]
    · intro k hk1 hk2
      obtain ⟨k', rfl⟩ : ∃ k', k = k' + 1 := ⟨k - 1, by omega⟩
      simp only [List.length_cons] at hk2
      have hk' : k' < rest.length := by omega
      have hne' : ¬(1 + k' = rest.length) := by omega
      simp [hflag, List.getElem?_range hk', hne']
    · intro hlen
      simp only [List.length_cons] at hlen
      have hr : 0 < rest.length := by omega
      have hidx : (s0 :: rest).length - 1 = (rest.length - 1) + 1 := by
        simp only [List.length_cons]
        omega
      have heq : 1 + (rest.length - 1) = rest.length := by omega
      have hlt : rest.length - 1 < rest.length := by omega
      rw [hflag, hidx]
      simp [List.getElem?_range hlt, heq]

/-- Witness for claim C2: in a 3-sample chunk pushed with pushthrough true,
the intermediate sample carries false and the last sample carries true. -/
theorem push_chunk_ex_pushthrough_witness :
    ((push_chunk_ex ([5, 6, 7] : List ℚ) 0 true 0 9).map
        (fun x => x.2.2))[1]? = some false ∧
    ((push_chunk_ex ([5, 6, 7] : List ℚ) 0 true 0 9).map
        (fun x => x.2.2))[2]? = some true := by
  have h := push_chunk_ex_pushthrough ([5, 6, 7] : List ℚ) 0 true 0 9
    (by decide)
  exact ⟨h.2.1 1 (by decide) (by decide), h.2.2 (by decide)⟩

/-- Claim C3: a push call whose data vector length differs from the cached
channel count of the outlet aborts (assertion panic, modelled as none)
before reaching the engine, rather than returning a recoverable error;
this covers the numeric value types (through safe_push_numeric), the
string-like value types (through safe_push_blob), and the plain push_sample
entry points of both families. -/
theorem push_length_mismatch_aborts (o : StreamOutlet) (data : List α)
    (bdata : List (List Nat)) (timestamp : ℚ) (pushthrough : Bool)
    (hd : data.length ≠ o.channel_count)
    (hb : bdata.length ≠ o.channel_count) :
    safe_push_numeric o data timestamp pushthrough = none ∧
    safe_push_blob o bdata timestamp pushthrough = none ∧
    push_sample o data = none ∧
    push_sample_blob o bdata = none := by
  refine ⟨?_, ?_, ?_, ?_⟩ <;>
    simp [safe_push_numeric, safe_push_blob, push_sample, push_sample_blob,
      hd, hb]

/-- Witness for claim C3: pushing two values into a three-channel outlet
aborts. -/
theorem push_length_mismatch_aborts_witness :
    safe_push_numeric ⟨3, 100⟩ ([1, 2] : List ℚ) 0 true = none ∧
    safe_push_blob ⟨3, 100⟩ [[65], [66]] 0 true = none ∧
    push_sample ⟨3, 100⟩ ([1, 2] : List ℚ) = none ∧
    push_sample_blob ⟨3, 100⟩ [[65], [66]] = none :=
  push_length_mismatch_aborts ⟨3, 100⟩ ([1, 2] : List ℚ) [[65], [66]] 0 true
    (by decide) (by decide)

/-- Claim C7 (failing input): push_chunk_stamped_ex called with two EMPTY
equal-length vectors aborts, because samples.len() - 1 is computed on usize
before the emptiness check (subtraction-overflow panic in debug builds, a
wrapped index followed by an out-of-bounds panic in release builds), even
though the assert_eq length guard passes and the code carries an explicit
emptiness guard for the final push; so the claim that the call aborts
exactly when the lengths differ does not hold on the code. -/
theorem push_chunk_stamped_ex_empty_aborts :
    push_chunk_stamped_ex ([] : List ℚ) [] true = none ∧
    ([] : List ℚ).length = ([] : List ℚ).length := by
  exact ⟨rfl, rfl⟩

/-- Embedding of StreamInfo::new (src/src/lib.rs).  Strings are modelled as
their byte sequences (an embedded null is the byte 0).  The function first
rejects an empty stream name, a negative nominal rate, or a channel count
of 2^31 or more with BadArgument; then each of the three string arguments
is converted to a C string, which fails with BadArgument on an embedded
null byte (through the From conversion of ffi::NulError); finally the
engine constructor runs, yielding ResourceCreation exactly on a null
handle (modelled by the flag engineNull), and Ok otherwise. -/
def StreamInfo_new (stream_name stream_type : List Nat) (channel_count : Nat)
    (nominal_srate : ℚ) (source_id : List Nat) (engineNull : Bool) :
    Except Error Unit :=
  if stream_name = [] ∨ nominal_srate < 0 ∨ 2 ^ 31 ≤ channel_count then
    .error .BadArgument
  else if 0 ∈ stream_name then .error .BadArgument
  else if 0 ∈ stream_type then .error .BadArgument
  else if 0 ∈ source_id then .error .BadArgument
  else if engineNull then .error .ResourceCreation
  else .ok ()

/-- Claim C4: StreamInfo::new returns Err(BadArgument) whenever the stream
name is empty, or the nominal rate is negative, or the channel count is at
least 2^31, or any of the three string arguments contains an embedded null
byte; otherwise it returns Err(ResourceCreation) exactly when the engine
yields a null handle, and Ok otherwise.  The channel-count bound 2^32
reflects the u32 argument type. -/
theorem StreamInfo_new_spec (stream_name stream_type : List Nat)
    (channel_count : Nat) (nominal_srate : ℚ) (source_id : List Nat)
    (engineNull : Bool) (_hcc : channel_count < 2 ^ 32) :
    (StreamInfo_new stream_name stream_type channel_count nominal_srate
        source_id engineNull = .error .BadArgument ↔
      stream_name = [] ∨ nominal_srate < 0 ∨ 2 ^ 31 ≤ channel_count ∨
        0 ∈ stream_name ∨ 0 ∈ stream_type ∨ 0 ∈ source_id) ∧
    (¬(stream_name = [] ∨ nominal_srate < 0 ∨ 2 ^ 31 ≤ channel_count ∨
        0 ∈ stream_name ∨ 0 ∈ stream_type ∨ 0 ∈ source_id) →
      (StreamInfo_new stream_name stream_type channel_count nominal_srate
          source_id engineNull = .error .ResourceCreation ↔ engineNull) ∧
      (StreamInfo_new stream_name stream_type channel_count nominal_srate
          source_id engineNull = .ok () ↔ engineNull = false)) := by
  unfold StreamInfo_new
  by_cases ha : stream_name = [] <;>
  by_cases hb : nominal_srate < 0 <;>
  by_cases hc : 2 ^ 31 ≤ channel_count <;>
  by_cases h2 : 0 ∈ stream_name <;>
  by_cases h3 : 0 ∈ stream_type <;>
  by_cases h4 : 0 ∈ source_id <;>
  cases engineNull <;>
  (simp_all <;> try tauto)
  all_goals
    rw [if_neg (show ¬(nominal_srate < 0 ∨ 2147483648 ≤ channel_count) by
      push_neg
      exact ⟨hb, hc⟩)]
  all_goals simp_all

/-- Witness for claim C4: a well-formed declaration succeeds when the
engine yields a handle, and an empty name is rejected. -/
theorem StreamInfo_new_spec_witness :
    StreamInfo_new [66, 105, 111] [69, 69, 71] 8 500 [] false = .ok () ∧
    StreamInfo_new [] [69, 69, 71] 8 500 [] false = .error .BadArgument := by
  constructor
  · exact ((StreamInfo_new_spec [66, 105, 111] [69, 69, 71] 8 500 [] false
      (by norm_num)).2 (by decide)).2.mpr rfl
  · exact (StreamInfo_new_spec [] [69, 69, 71] 8 500 [] false
      (by norm_num)).1.mpr (Or.inl rfl)

/-- One engine response to a pull call: the returned timestamp (0 when no
new sample arrived within the timeout), the error code deposited in the
output parameter, and the values the engine wrote into the caller buffer
(one per channel index; for the blob path, the value is the result of the
mapper applied to the k-th returned byte slice).  The buffer length is
fixed by the caller at the cached channel count, so the written values are
modelled as a function from channel index. -/
structure PullResp (α : Type) where
  ts : ℚ
  ec : Int
  written : Nat → α

/-- Embedding of StreamInlet::safe_pull_numeric (src/src/lib.rs): a buffer
of channel_count zeros is passed to the engine together with the timeout;
the deposited error code is converted through ec_to_result and propagated;
then, when the returned timestamp is 0.0, the buffer is cleared and the
empty vector returned with timestamp 0.0; otherwise the filled buffer of
channel_count values is returned alongside the timestamp. -/
def safe_pull_numeric (channel_count : Nat) (_timeout : ℚ)
    (resp : PullResp α) : Except Error (List α × ℚ) :=
  match ec_to_result resp.ec with
  | .error e => .error e
  | .ok _ =>
    if resp.ts = 0 then .ok ([], resp.ts)
    else .ok ((List.range channel_count).map resp.written, resp.ts)

/-- Embedding of StreamInlet::safe_pull_blob (src/src/lib.rs): the engine
fills channel_count pointer/length pairs; the deposited error code is
converted through ec_to_result and propagated; the sample vector starts
empty and is filled with the channel_count mapped slices only when the
returned timestamp is not 0.0. -/
def safe_pull_blob (channel_count : Nat) (_timeout : ℚ)
    (resp : PullResp β) : Except Error (List β × ℚ) :=
  match ec_to_result resp.ec with
  | .error e => .error e
  | .ok _ =>
    if resp.ts ≠ 0 then .ok ((List.range channel_count).map resp.written, resp.ts)
    else .ok ([], resp.ts)

/-- Claim C5: when the engine reports no new sample within the timeout
(returned timestamp 0.0 together with a non-negative error code), both
pull paths return Ok with an empty sample vector and timestamp 0.0, and in
particular never Err(Timeout). -/
theorem pull_sample_no_data (channel_count : Nat) (timeout : ℚ)
    (resp : PullResp α) (respB : PullResp β)
    (h1 : resp.ts = 0) (h2 : 0 ≤ resp.ec)
    (h3 : respB.ts = 0) (h4 : 0 ≤ respB.ec) :
    safe_pull_numeric channel_count timeout resp = .ok ([], 0) ∧
    safe_pull_blob channel_count timeout respB = .ok ([], 0) ∧
    safe_pull_numeric channel_count timeout resp ≠ .error .Timeout ∧
    safe_pull_blob channel_count timeout respB ≠ .error .Timeout := by
  have e1 : ec_to_result resp.ec = .ok resp.ec := by
    unfold ec_to_result
    rw [if_neg (by omega)]
  have e2 : ec_to_result respB.ec = .ok respB.ec := by
    unfold ec_to_result
    rw [if_neg (by omega)]
  unfold safe_pull_numeric safe_pull_blob
  rw [e1, e2]
  simp [h1, h3]

/-- Witness for claim C5 at a concrete engine response. -/
theorem pull_sample_no_data_witness :
    safe_pull_numeric 4 2 (⟨0, 0, fun _ => (0 : ℚ)⟩ : PullResp ℚ) =
      .ok ([], 0) ∧
    safe_pull_blob 4 2 (⟨0, 0, fun _ => ([] : List Nat)⟩ :
      PullResp (List Nat)) = .ok ([], 0) :=
  have h := pull_sample_no_data 4 2 (⟨0, 0, fun _ => (0 : ℚ)⟩ : PullResp ℚ)
    (⟨0, 0, fun _ => ([] : List Nat)⟩ : PullResp (List Nat))
    rfl (by decide) rfl (by decide)
  ⟨h.1, h.2.1⟩

/-- Claim C10: whenever a pull returns Ok((sample, ts)), a non-zero ts
comes with a sample of exactly channel_count elements, and ts = 0 comes
with an empty sample; this holds for the numeric path and the blob path
(String and byte pulls) alike. -/
theorem pull_sample_length_invariant (channel_count : Nat) (timeout : ℚ)
    (resp : PullResp α) (respB : PullResp β) :
    (∀ sample ts, safe_pull_numeric channel_count timeout resp =
        .ok (sample, ts) →
      (ts ≠ 0 → sample.length = channel_count) ∧ (ts = 0 → sample = [])) ∧
    (∀ sample ts, safe_pull_blob channel_count timeout respB =
        .ok (sample, ts) →
      (ts ≠ 0 → sample.length = channel_count) ∧ (ts = 0 → sample = [])) := by
  constructor
  · intro sample ts h
    unfold safe_pull_numeric at h
    rcases he : ec_to_result resp.ec with e | v <;> rw [he] at h
    · cases h
    · split_ifs at h with hts <;> (cases h; simp_all)
  · intro sample ts h
    unfold safe_pull_blob at h
    rcases he : ec_to_result respB.ec with e | v <;> rw [he] at h
    · cases h
    · split_ifs at h with hts <;> (cases h; simp_all)

/-- Witness for claim C10: a successful pull at a non-zero timestamp on a
2-channel inlet yields 2 values, and a no-data pull yields the empty
vector. -/
theorem pull_sample_length_invariant_witness :
    ([7, 7] : List ℚ).length = 2 ∧ ([] : List (List Nat)) = [] :=
  have h := pull_sample_length_invariant 2 0
    (⟨5, 0, fun _ => (7 : ℚ)⟩ : PullResp ℚ)
    (⟨0, 0, fun _ => ([] : List Nat)⟩ : PullResp (List Nat))
  ⟨(h.1 [7, 7] 5 rfl).1 (by decide),
   (h.2 [] 0 rfl).2 rfl⟩

/-- Embedding of Pullable::pull_chunk (src/src/lib.rs): the loop repeatedly
calls pull_sample(0.0) and, while the returned stamp is non-zero, appends
the sample and stamp to the accumulators; a zero stamp breaks the loop and
returns the accumulated pair; an Err from pull_sample propagates out
immediately.  The successive non-blocking pull results are modelled as the
queue of responses the engine would hand back in order; once the queue is
exhausted, a non-blocking pull reports no new data, i.e. ([], 0). -/
def pull_chunk : List (Except Error (List α × ℚ)) →
    Except Error (List (List α) × List ℚ)
  | [] => .ok ([], [])
  | r :: queue =>
    match r with
    | .error e => .error e
    | .ok (sample, stamp) =>
      if stamp ≠ 0 then
        match pull_chunk queue with
        | .error e => .error e
        | .ok (samples, stamps) => .ok (sample :: samples, stamp :: stamps)
      else
        .ok ([], [])

/-- Claim C6: pull_chunk accumulates the successive pull_sample(0.0)
results while their timestamps are non-zero and stops at the first zero
timestamp; with no data pending it returns two empty vectors, and with
exactly the pending samples all carrying non-zero timestamps it returns
exactly those samples and stamps, as two equal-length vectors in pull
order. -/
theorem pull_chunk_spec (pending : List (List α × ℚ))
    (h : ∀ p ∈ pending, p.2 ≠ 0) :
    pull_chunk (pending.map Except.ok) =
      .ok (pending.map Prod.fst, pending.map Prod.snd) ∧
    pull_chunk ([] : List (Except Error (List α × ℚ))) = .ok ([], []) ∧
    (pending.map Prod.fst).length = (pending.map Prod.snd).length := by
  refine ⟨?_, rfl, by simp⟩
  induction pending with
  | nil => rfl
  | cons p rest ih =>
    have hp : p.2 ≠ 0 := h p (List.mem_cons_self p rest)
    have ih' := ih (fun q hq => h q (List.mem_cons_of_mem p hq))
    obtain ⟨s, t⟩ := p
    simp only [List.map_cons, pull_chunk, if_pos hp, ih']

/-- Witness for claim C6 at a concrete two-sample queue. -/
theorem pull_chunk_spec_witness :
    pull_chunk ([.ok ([1, 2], 5), .ok ([3, 4], 6)] :
        List (Except Error (List ℚ × ℚ))) =
      .ok ([[1, 2], [3, 4]], [5, 6]) :=
  (pull_chunk_spec ([([1, 2], 5), ([3, 4], 6)] : List (List ℚ × ℚ))
    (by decide)).1

/-- Embedding of ContinuousResolver::new (src/src/lib.rs): a non-positive
forget_after is rejected with BadArgument before the engine is reached;
otherwise the engine constructor runs (engineNull tells whether it yields a
null handle).  The Bool component records whether the engine was called. -/
def ContinuousResolver_new (forget_after : ℚ) (engineNull : Bool) :
    Bool × Except Error Unit :=
  if forget_after ≤ 0 then (false, .error .BadArgument)
  else (true, if engineNull then .error .ResourceCreation else .ok ())

/-- Embedding of ContinuousResolver::new_with_prop (src/src/lib.rs), with
the prop and value strings modelled as byte sequences: a non-positive
forget_after is rejected first; then each string is converted to a C
string, failing with BadArgument on an embedded null byte before the
engine is reached; otherwise the engine constructor runs. -/
def ContinuousResolver_new_with_prop (prop value : List Nat)
    (forget_after : ℚ) (engineNull : Bool) : Bool × Except Error Unit :=
  if forget_after ≤ 0 then (false, .error .BadArgument)
  else if 0 ∈ prop then (false, .error .BadArgument)
  else if 0 ∈ value then (false, .error .BadArgument)
  else (true, if engineNull then .error .ResourceCreation else .ok ())

/-- Embedding of ContinuousResolver::new_with_pred (src/src/lib.rs), with
the predicate string modelled as a byte sequence: a non-positive
forget_after is rejected first; then the predicate is converted to a C
string, failing with BadArgument on an embedded null byte before the
engine is reached; otherwise the engine constructor runs. -/
def ContinuousResolver_new_with_pred (pred : List Nat) (forget_after : ℚ)
    (engineNull : Bool) : Bool × Except Error Unit :=
  if forget_after ≤ 0 then (false, .error .BadArgument)
  else if 0 ∈ pred then (false, .error .BadArgument)
  else (true, if engineNull then .error .ResourceCreation else .ok ())

/-- Counterexample to claim C8 as stated: new_with_prop called with a
property string containing an embedded null byte, forget_after = 1 > 0,
and an engine that would yield a non-null handle, does NOT call the engine
and returns Err(BadArgument) -- whereas the claim asserts that for every
forget_after > 0 the constructor calls the engine and succeeds unless the
engine yields a null handle. -/
theorem ContinuousResolver_prop_nul_counterexample :
    ContinuousResolver_new_with_prop [0] [] 1 false =
      (false, .error .BadArgument) ∧
    ContinuousResolver_new_with_prop [0] [] 1 false ≠ (true, .ok ()) := by
  constructor
  · rfl
  · intro h
    cases h

/-- Claim C8 (amended): each of the three constructors returns
Err(BadArgument) for every forget_after <= 0 without calling the engine;
for forget_after > 0, new always calls the engine, and new_with_prop and
new_with_pred first return Err(BadArgument) without calling the engine
when a string argument contains an embedded null byte; in all remaining
cases the constructor calls the engine and returns Err(ResourceCreation)
exactly when the engine yields a null handle, and Ok otherwise. -/
theorem ContinuousResolver_new_spec (prop value pred : List Nat)
    (forget_after : ℚ) (engineNull : Bool) :
    (forget_after ≤ 0 →
      ContinuousResolver_new forget_after engineNull =
        (false, .error .BadArgument) ∧
      ContinuousResolver_new_with_prop prop value forget_after engineNull =
        (false, .error .BadArgument) ∧
      ContinuousResolver_new_with_pred pred forget_after engineNull =
        (false, .error .BadArgument)) ∧
    (0 < forget_after →
      ContinuousResolver_new forget_after engineNull =
        (true, if engineNull then .error .ResourceCreation else .ok ()) ∧
      ((0 ∈ prop ∨ 0 ∈ value) →
        ContinuousResolver_new_with_prop prop value forget_after engineNull =
          (false, .error .BadArgument)) ∧
      (0 ∉ prop → 0 ∉ value →
        ContinuousResolver_new_with_prop prop value forget_after engineNull =
          (true, if engineNull then .error .ResourceCreation else .ok ())) ∧
      (0 ∈ pred →
        ContinuousResolver_new_with_pred pred forget_after engineNull =
          (false, .error .BadArgument)) ∧
      (0 ∉ pred →
        ContinuousResolver_new_with_pred pred forget_after engineNull =
          (true, if engineNull then .error .ResourceCreation else .ok ()))) := by
  unfold ContinuousResolver_new ContinuousResolver_new_with_prop
    ContinuousResolver_new_with_pred
  constructor
  · intro h
    rw [if_pos h, if_pos h, if_pos h]
    exact ⟨rfl, rfl, rfl⟩
  · intro h
    have h' : ¬forget_after ≤ 0 := not_le.mpr h
    rw [if_neg h', if_neg h', if_neg h']
    refine ⟨rfl, ?_, ?_, ?_, ?_⟩
    · rintro (hp | hv)
      · rw [if_pos hp]
      · by_cases hp : 0 ∈ prop
        · rw [if_pos hp]
        · rw [if_neg hp, if_pos hv]
    · intro hp hv
      rw [if_neg hp, if_neg hv]
    · intro hp
      rw [if_pos hp]
    · intro hp
      rw [if_neg hp]

/-- Witness for the amended claim C8 at concrete inputs. -/
theorem ContinuousResolver_new_spec_witness :
    ContinuousResolver_new 5 false = (true, .ok ()) ∧
    ContinuousResolver_new_with_prop [110] [69] 5 false = (true, .ok ()) ∧
    ContinuousResolver_new (-1) false = (false, .error .BadArgument) := by
  have hpos := (ContinuousResolver_new_spec [110] [69] [] 5 false).2
    (by norm_num)
  have hneg := (ContinuousResolver_new_spec [110] [69] [] (-1) false).1
    (by norm_num)
  exact ⟨hpos.1, hpos.2.2.1 (by decide) (by decide), hneg.1⟩
